import Mathlib

/-!
Verification development for the LiveDiarization notebook
(diarized_stt repository).

The notebook glues a streaming diarization library (diart / pyannote.core)
to a speech-to-text model (whisper_timestamped).  The local glue code is:

* `WhisperTranscriber` (notebook cell 9): `transcribe`, `identify_speakers`
  and `__call__` (modelled as `WhisperTranscriber.call`);
* `concat` and `colorize_transcription` (cell 12);
* the stream pipeline constants and stages (cells 5, 10 and 13).

Timestamps are Python floats in the source; the code only adds, subtracts
and compares them, so they are modelled over an arbitrary
`LinearOrderedAddCommGroup` (with `ℚ` as the intended instantiation, and
`ℤ` used for concrete evaluations).

Library functions the notebook calls (pyannote.core `Segment.__and__`,
`Annotation.crop`, `labels`, `label_duration`, `update`, `support`,
`get_timeline().duration()`, numpy `argmax`, Python `str.split`, `int`,
list indexing and `str.join`, whisper `pad_or_trim` and `load_model`) are
modelled from their documented semantics, since they are external to the
repository.
-/

namespace DiarizedSTT

variable {α : Type} [LinearOrderedAddCommGroup α]

/-- Model of a pyannote.core Segment: a closed time interval.  The field
`stop` plays the role of the Python attribute `end` (a Lean keyword). -/
structure Seg (α : Type) where
  start : α
  stop : α

/-- Segment duration, `stop - start` (pyannote `Segment.duration`). -/
def Seg.duration (s : Seg α) : α := s.stop - s.start

/-- Intersection of two segments (pyannote `Segment.__and__`). -/
def Seg.inter (a b : Seg α) : Seg α :=
  { start := max a.start b.start, stop := min a.stop b.stop }

/-- Model of a pyannote.core Annotation: a uri together with the list of
(segment, label) tracks.  (The Python class name ends in a word the
development cannot reuse, hence the abbreviated Lean name.) -/
structure Annot (α : Type) where
  uri : String
  tracks : List (Seg α × String)

/-- Model of pyannote `Annotation.crop(Segment(start, end))` with the
default mode `intersection`: every track segment is replaced by its
intersection with the support and empty intersections are dropped
(a pyannote segment is considered empty when its duration is not
positive). -/
def Annot.crop (a : Annot α) (support : Seg α) : Annot α :=
  { uri := a.uri
    tracks := a.tracks.filterMap (fun t =>
      let i := Seg.inter t.1 support
      if i.start < i.stop then some (i, t.2) else none) }

/-- Code-point lexicographic comparison of character lists, the order
Python uses to compare strings. -/
def charListLE : List Char → List Char → Bool
  | [], _ => true
  | _ :: _, [] => false
  | a :: as, b :: bs =>
      if a.val < b.val then true
      else if b.val < a.val then false
      else charListLE as bs

/-- Python string order (code-point lexicographic). -/
def strLE (a b : String) : Bool := charListLE a.data b.data

/-- Insertion step of the sort used to model Python `sorted`. -/
def insertLabel (x : String) : List String → List String
  | [] => [x]
  | y :: ys => if strLE x y then x :: y :: ys else y :: insertLabel x ys

/-- Insertion sort on strings, modelling Python `sorted` on labels. -/
def sortLabels (l : List String) : List String := l.foldr insertLabel []

/-- Remove duplicates from a list of labels (the relative order does not
matter because the result is sorted afterwards). -/
def dedupKeep : List String → List String
  | [] => []
  | x :: xs => if xs.contains x then dedupKeep xs else x :: dedupKeep xs

/-- Model of pyannote `Annotation.labels()`: the sorted list of distinct
track labels. -/
def Annot.labels (a : Annot α) : List String :=
  sortLabels (dedupKeep (a.tracks.map Prod.snd))

/-- Order on segments by (start, stop), as pyannote keeps timelines
sorted. -/
def segLEb (a b : Seg α) : Bool :=
  decide (a.start < b.start) || (decide (a.start = b.start) && decide (a.stop ≤ b.stop))

/-- Insertion step for sorting segments. -/
def insertSeg (x : Seg α) : List (Seg α) → List (Seg α)
  | [] => [x]
  | y :: ys => if segLEb x y then x :: y :: ys else y :: insertSeg x ys

/-- Insertion sort of segments by (start, stop). -/
def sortSegs (l : List (Seg α)) : List (Seg α) := l.foldr insertSeg []

/-- Merge a sorted list of segments into its support, folding the current
segment into the next ones: two consecutive segments are merged when they
touch or overlap, or when the gap between them is strictly smaller than
`collar` (pyannote `Timeline.support(collar)`). -/
def mergeInto (collar : α) (cur : Seg α) : List (Seg α) → List (Seg α)
  | [] => [cur]
  | b :: rest =>
      if b.start ≤ cur.stop ∨ b.start - cur.stop < collar
      then mergeInto collar { start := cur.start, stop := max cur.stop b.stop } rest
      else cur :: mergeInto collar b rest

/-- Support of a sorted segment list with a collar. -/
def mergeSorted (collar : α) : List (Seg α) → List (Seg α)
  | [] => []
  | a :: rest => mergeInto collar a rest

/-- The segments carrying a given label. -/
def Annot.label_segments (a : Annot α) (l : String) : List (Seg α) :=
  (a.tracks.filter (fun t => t.2 == l)).map Prod.fst

/-- Model of pyannote `Annotation.label_duration(label)`: the duration of
the support of the timeline of that label. -/
def Annot.label_duration (a : Annot α) (l : String) : α :=
  ((mergeSorted 0 (sortSegs (a.label_segments l))).map Seg.duration).sum

/-- Model of pyannote `Annotation.update(other)`: add the tracks of the
other annotation, keeping the uri. -/
def Annot.update (a b : Annot α) : Annot α :=
  { uri := a.uri, tracks := a.tracks ++ b.tracks }

/-- Model of pyannote `Annotation.support(collar)`: per label, merge the
segments that are closer than the collar. -/
def Annot.support (a : Annot α) (collar : α) : Annot α :=
  { uri := a.uri
    tracks := (a.labels).flatMap (fun l =>
      (mergeSorted collar (sortSegs (a.label_segments l))).map (fun s => (s, l))) }

/-- Model of pyannote `annotation.get_timeline().duration()`: duration of
the support of all track segments. -/
def Annot.timeline_duration (a : Annot α) : α :=
  ((mergeSorted 0 (sortSegs (a.tracks.map Prod.fst))).map Seg.duration).sum

/-- Model of a pyannote SlidingWindow (duration, step, start), the
constructor argument order used by `concat` in the notebook. -/
structure SlidingWindow (α : Type) where
  duration : α
  step : α
  start : α

/-- Model of a pyannote SlidingWindowFeature: the flattened sample data
together with its sliding window. -/
structure SlidingWindowFeature (α : Type) where
  data : List α
  sliding_window : SlidingWindow α

/-- Model of a whisper_timestamped word dict: "text", "start", "end"
(field `stop`). -/
structure Word (α : Type) where
  start : α
  stop : α
  text : String

/-- Model of a whisper_timestamped segment dict: it carries its own
"start" and "end" fields (field `stop`) besides "text" and the word list;
`identify_speakers` reads only the words and the text. -/
structure TSegment (α : Type) where
  start : α
  stop : α
  text : String
  words : List (Word α)

/-- Model of a whisper_timestamped transcription dict: full "text" plus
the segment list. -/
structure Transcription (α : Type) where
  text : String
  segments : List (TSegment α)

/-- The whisper model behaviour is abstracted as an oracle mapping the
(padded or trimmed) audio and the initial prompt to a transcription. -/
def WhisperOracle (α : Type) : Type := List α → String → Transcription α

/-- Whisper N_SAMPLES: 30 seconds at 16 kHz. -/
def padTarget : ℕ := 480000

/-- Model of `whisper.pad_or_trim`: pad the audio with zeros or trim it to
exactly `padTarget` samples. -/
def pad_or_trim (audio : List α) : List α :=
  if audio.length ≤ padTarget then audio ++ List.replicate (padTarget - audio.length) 0
  else audio.take padTarget

/-- The mutable state of a WhisperTranscriber instance: the accumulating
prompt buffer `_buffer` (the loaded model is abstracted by the oracle). -/
structure WhisperTranscriber where
  buffer : String

/-- The state right after `__init__`: an empty buffer. -/
def WhisperTranscriber.initState : WhisperTranscriber := { buffer := "" }

/-- Fuel-indexed splitter over character lists: scan left to right, cut at
each non-overlapping occurrence of `sep`.  The fuel is the length of the
scanned list, so the fallback branch is unreachable. -/
def splitOnFuel (sep : List Char) : ℕ → List Char → List Char → List (List Char)
  | _, acc, [] => [acc.reverse]
  | 0, acc, rest => [acc.reverse ++ rest]
  | fuel + 1, acc, c :: rest =>
      if sep.isPrefixOf (c :: rest)
      then acc.reverse :: splitOnFuel sep fuel [] ((c :: rest).drop sep.length)
      else splitOnFuel sep fuel (c :: acc) rest

/-- Model of Python `s.split(sep)` for a non-empty separator. -/
def pySplit (s sep : String) : List String :=
  (splitOnFuel sep.data s.data.length [] s.data).map (fun l => { data := l })

/-- Digit-sequence parser used to model Python `int`. -/
def parseNatDigitsAux (acc : ℕ) : List Char → Option ℕ
  | [] => some acc
  | c :: cs => if c.isDigit then parseNatDigitsAux (10 * acc + (c.toNat - 48)) cs else none

/-- Model of Python `int(s)` on the strings produced here: an optional
minus sign followed by a non-empty digit sequence; anything else raises
ValueError (represented by `none`). -/
def pyIntChars : List Char → Option ℤ
  | [] => none
  | c :: cs =>
      if c = '-' then
        match cs with
        | [] => none
        | _ :: _ => (parseNatDigitsAux 0 cs).map (fun n => -(n : ℤ))
      else (parseNatDigitsAux 0 (c :: cs)).map (fun n => (n : ℤ))

/-- The speaker-id parse performed by `identify_speakers` in the single
speaker branch: `int(label.split("speaker")[1])`.  `none` models the
IndexError (no "speaker" occurrence) or the ValueError (non-numeric
suffix) the Python expression can raise. -/
def parseSpkId (l : String) : Option ℤ :=
  match (pySplit l "speaker").get? 1 with
  | none => none
  | some t => pyIntChars t.data

/-- Model of `numpy.argmax` on a list: the index of the first occurrence
of the maximum value (numpy documents first-occurrence tie-breaking).
Never applied to an empty list by the notebook. -/
def argmaxIdx : List α → ℕ
  | [] => 0
  | [_] => 0
  | x :: y :: ys =>
      if x < (y :: ys).getD (argmaxIdx (y :: ys)) 0
      then argmaxIdx (y :: ys) + 1
      else 0

/-- The crop interval computed by `identify_speakers` for a segment whose
word list is `w :: ws`:
`Segment(time_shift + words[0]["start"], time_shift + words[-1]["end"])`. -/
def wordCropSeg (time_shift : α) (w : Word α) (ws : List (Word α)) : Seg α :=
  { start := time_shift + w.start, stop := time_shift + (ws.getLastD w).stop }

/-- The speaker-selection part of the `identify_speakers` loop body, which
only looks at the already-cropped diarization: no label gives the sentinel
`-1`; exactly one label gives `int(label.split("speaker")[1])`; several
labels give `int(np.argmax([dia.label_duration(spk) for spk in
speakers]))`, which is an index into the sorted label list. -/
def selectSpeaker (dia : Annot α) (text : String) : Except String (ℤ × String) :=
  let speakers := dia.labels
  if speakers.length = 0 then Except.ok (-1, text)
  else if speakers.length = 1 then
    match parseSpkId (speakers.getD 0 "") with
    | some k => Except.ok (k, text)
    | none => Except.error "ValueError: invalid literal for int with base 10"
  else
    Except.ok (((argmaxIdx (speakers.map (fun spk => dia.label_duration spk)) : ℤ)), text)

/-- One iteration of the `identify_speakers` loop: crop the diarization to
the word-timestamp interval of the segment, then select a speaker.  An
empty word list makes `segment["words"][0]` raise IndexError. -/
def assignSpeaker (dia : Annot α) (time_shift : α) (seg : TSegment α) :
    Except String (ℤ × String) :=
  match seg.words with
  | [] => Except.error "IndexError: list index out of range"
  | w :: ws => selectSpeaker (dia.crop (wordCropSeg time_shift w ws)) seg.text

/-- The `identify_speakers` loop over the segments: captions are
accumulated in order, and the first raised exception aborts the whole
call. -/
def assignAll (dia : Annot α) (time_shift : α) :
    List (TSegment α) → Except String (List (ℤ × String))
  | [] => Except.ok []
  | seg :: rest =>
      match assignSpeaker dia time_shift seg with
      | Except.error e => Except.error e
      | Except.ok c =>
          match assignAll dia time_shift rest with
          | Except.error e => Except.error e
          | Except.ok cs => Except.ok (c :: cs)

/-- Model of `WhisperTranscriber.identify_speakers`. -/
def identify_speakers (transcription : Transcription α) (diarization : Annot α)
    (time_shift : α) : Except String (List (ℤ × String)) :=
  assignAll diarization time_shift transcription.segments

/-- Model of `WhisperTranscriber.transcribe`: pad or trim the flattened
audio and run the model conditioned on the current buffer
(`initial_prompt=self._buffer`). -/
def WhisperTranscriber.transcribe (model : WhisperOracle α) (st : WhisperTranscriber)
    (waveform : SlidingWindowFeature α) : Transcription α :=
  model (pad_or_trim waveform.data) st.buffer

/-- Model of `WhisperTranscriber.__call__`: transcribe, append the new
text to the buffer, then identify speakers with
`time_shift = waveform.sliding_window.start`.  The returned pair is the
updated state and the speaker captions (or the raised exception; the
buffer is updated before `identify_speakers` runs). -/
def WhisperTranscriber.call (model : WhisperOracle α) (st : WhisperTranscriber)
    (diarization : Annot α) (waveform : SlidingWindowFeature α) :
    WhisperTranscriber × Except String (List (ℤ × String)) :=
  let transcription := WhisperTranscriber.transcribe model st waveform
  let st2 : WhisperTranscriber := { buffer := st.buffer ++ transcription.text }
  let time_shift := waveform.sliding_window.start
  (st2, identify_speakers transcription diarization time_shift)

/-- The diarization configuration of cell 5. -/
structure SpeakerDiarizationConfig where
  duration : ℚ
  step : ℚ
  tau_active : ℚ
  rho_update : ℚ
  delta_new : ℚ

/-- `config = SpeakerDiarizationConfig(duration=5, step=0.5, ...)`. -/
def config : SpeakerDiarizationConfig :=
  { duration := 5, step := 1/2, tau_active := 1/2, rho_update := 1/10, delta_new := 57/100 }

/-- `transcription_duration = 2` (cell 13). -/
def transcription_duration : ℚ := 2

/-- `batch_size = int(transcription_duration // config.step)` (cell 13). -/
def batch_size : ℕ := (Rat.floor (transcription_duration / config.step)).toNat

/-- Model of `concat(chunks, collar)` (cell 12): on a non-empty chunk
list, build one annotation by updating an empty annotation carrying the
first uri with every chunk annotation, take its support with the collar,
and concatenate the sample arrays in order under the first chunk's
sliding window; `chunks[0]` on an empty list raises IndexError, modelled
as `none`.  The Python default collar is 0.05. -/
def concat (chunks : List (Annot α × SlidingWindowFeature α)) (collar : α) :
    Option (Annot α × SlidingWindowFeature α) :=
  match chunks with
  | [] => none
  | first :: rest =>
      let initA : Annot α := { uri := first.1.uri, tracks := [] }
      let merged := (first :: rest).foldl (fun acc c => Annot.update acc c.1) initA
      let data := ((first :: rest).map (fun c => c.2.data)).flatten
      let window : SlidingWindow α :=
        { duration := first.2.sliding_window.duration
          step := first.2.sliding_window.step
          start := first.2.sliding_window.start }
      some (Annot.support merged collar, { data := data, sliding_window := window })

/-- The ten-color palette literal inside `colorize_transcription`. -/
def colorPalette : List String :=
  ["bright_red", "bright_blue", "bright_green", "orange3", "deep_pink1",
   "yellow2", "magenta", "cyan", "bright_magenta", "dodger_blue2"]

/-- `colors = 2 * [...]`: the palette list repeated twice (20 entries). -/
def colors : List String := colorPalette ++ colorPalette

/-- Python list indexing semantics: non-negative indices from the front,
negative indices from the back, IndexError (`none`) when out of range. -/
def pyListGet (l : List String) (i : ℤ) : Option String :=
  if 0 ≤ i then l.get? i.toNat
  else if 0 ≤ i + (l.length : ℤ) then l.get? (i + (l.length : ℤ)).toNat
  else none

/-- One iteration of the `colorize_transcription` loop: the sentinel
speaker `-1` keeps the plain text, any other id is looked up in `colors`
and wrapped in rich markup. -/
def colorizeCaption : ℤ × String → Except String String
  | (speaker, text) =>
      if speaker = -1 then Except.ok text
      else
        match pyListGet colors speaker with
        | some c => Except.ok ("[" ++ c ++ "]" ++ text)
        | none => Except.error "IndexError: list index out of range"

/-- Model of Python `sep.join(parts)`. -/
def pyJoin (sep : String) : List String → String
  | [] => ""
  | [x] => x
  | x :: xs => x ++ sep ++ pyJoin sep xs

/-- The `colorize_transcription` loop over the captions; the first raised
IndexError aborts the call. -/
def colorizeAll : List (ℤ × String) → Except String (List String)
  | [] => Except.ok []
  | c :: cs =>
      match colorizeCaption c with
      | Except.error e => Except.error e
      | Except.ok s =>
          match colorizeAll cs with
          | Except.error e => Except.error e
          | Except.ok ss => Except.ok (s :: ss)

/-- Model of `colorize_transcription`: color every caption and join the
results with newlines. -/
def colorize_transcription (transcription : List (ℤ × String)) : Except String String :=
  match colorizeAll transcription with
  | Except.error e => Except.error e
  | Except.ok ss => Except.ok (pyJoin "\n" ss)

/-- The argument passed as `model` to `whisper.load_model`: either a model
name or checkpoint path string, or (through the notebook bug) a pyannote
annotation. -/
inductive ModelArg (α : Type) where
  | name (s : String)
  | annot (a : Annot α)

/-- Model of `whisper_timestamped.load_model(model, device)`: it calls
`os.path.isfile(model)`, which raises TypeError on a non-path argument
such as an annotation (the exact failure captured in the notebook's own
output of cell 14). -/
def load_model : ModelArg α → Except String String
  | ModelArg.name s => Except.ok s
  | ModelArg.annot _ =>
      Except.error "TypeError: stat: path should be string, bytes, os.PathLike or integer, not Annotation"

/-- Model of `WhisperTranscriber.__init__(model, device)`: load the model,
then start with an empty buffer. -/
def WhisperTranscriber.initCall (modelArg : ModelArg α) : Except String WhisperTranscriber :=
  match load_model modelArg with
  | Except.error e => Except.error e
  | Except.ok _ => Except.ok WhisperTranscriber.initState

/-- What the name `asr` can be bound to: the `WhisperTranscriber` class
object itself, or a constructed instance. -/
inductive PyCallable where
  | transcriberClass : PyCallable
  | boundTranscriber (st : WhisperTranscriber) : PyCallable

/-- Cell 10: `asr = WhisperTranscriber` — the class object, not an
instance. -/
def asr : PyCallable := PyCallable.transcriberClass

/-- The value produced by the starmap stage: either speaker captions (when
an instance is called) or a freshly constructed transcriber object (when
the class is called, since calling a class returns a new instance). -/
inductive StageValue where
  | captions (cs : List (ℤ × String)) : StageValue
  | freshObject (t : WhisperTranscriber) : StageValue

/-- The `ops.filter` predicate of cell 13:
`ann_wav[0].get_timeline().duration() > 0`. -/
def passesSpeechFilter (p : Annot α × SlidingWindowFeature α) : Prop :=
  0 < p.1.timeline_duration

/-- Model of the `ops.starmap(asr)` stage of cell 13 applied to one merged
`(diarization, waveform)` pair: calling the class invokes `__init__` with
the annotation as the `model` argument; calling a bound instance invokes
`__call__`. -/
def transcriptionStage (oracle : WhisperOracle α) (b : PyCallable)
    (p : Annot α × SlidingWindowFeature α) : Except String StageValue :=
  match b with
  | PyCallable.transcriberClass =>
      match WhisperTranscriber.initCall (ModelArg.annot p.1) with
      | Except.error e => Except.error e
      | Except.ok t => Except.ok (StageValue.freshObject t)
  | PyCallable.boundTranscriber st =>
      match (WhisperTranscriber.call oracle st p.1 p.2).2 with
      | Except.error e => Except.error e
      | Except.ok cs => Except.ok (StageValue.captions cs)

/-- Fold a sequence of `__call__` invocations over a transcriber state. -/
def processAll (oracle : WhisperOracle α) :
    WhisperTranscriber → List (Annot α × SlidingWindowFeature α) → WhisperTranscriber
  | st, [] => st
  | st, p :: rest => processAll oracle (WhisperTranscriber.call oracle st p.1 p.2).1 rest

/-- The trace of a sequence of `__call__` invocations: for each call, the
initial prompt it passed to the model and the text the model produced. -/
def callTrace (oracle : WhisperOracle α) :
    WhisperTranscriber → List (Annot α × SlidingWindowFeature α) → List (String × String)
  | _, [] => []
  | st, p :: rest =>
      (st.buffer, (WhisperTranscriber.transcribe oracle st p.2).text)
        :: callTrace oracle (WhisperTranscriber.call oracle st p.1 p.2).1 rest

/-- Concatenation of a list of texts. -/
def concatTexts : List String → String
  | [] => ""
  | t :: ts => t ++ concatTexts ts

/-- Claim-variant of `assignSpeaker` following the literal reading of the
specification sentence for C8: crop the diarization to the segment-level
"start"/"end" fields (shifted by the time offset) instead of the word
timestamps. -/
def assignSpeakerSegFields (dia : Annot α) (time_shift : α) (seg : TSegment α) :
    Except String (ℤ × String) :=
  selectSpeaker (dia.crop { start := time_shift + seg.start, stop := time_shift + seg.stop })
    seg.text

end DiarizedSTT


namespace DiarizedSTT

variable {α : Type} [LinearOrderedAddCommGroup α]

/-! ## Helper lemmas -/

theorem strEmptyAppend (s : String) : "" ++ s = s := by
  cases s
  rfl

theorem strAppendEmpty (s : String) : s ++ "" = s := by
  cases s with
  | mk data =>
      show String.mk (data ++ []) = String.mk data
      rw [List.append_nil]

theorem strAppendAssoc (a b c : String) : a ++ b ++ c = a ++ (b ++ c) := by
  cases a with
  | mk da =>
      cases b with
      | mk db =>
          cases c with
          | mk dc =>
              show String.mk (da ++ db ++ dc) = String.mk (da ++ (db ++ dc))
              rw [List.append_assoc]

theorem argmaxIdx_lt (x : α) (xs : List α) : argmaxIdx (x :: xs) < (x :: xs).length := by
  induction xs generalizing x with
  | nil => simp [argmaxIdx]
  | cons y ys ih =>
      have h := ih y
      simp only [List.length_cons] at h
      by_cases hx : x < (y :: ys).getD (argmaxIdx (y :: ys)) 0
      · simp only [argmaxIdx, if_pos hx, List.length_cons]
        omega
      · simp only [argmaxIdx, if_neg hx, List.length_cons]
        omega

theorem argmaxIdx_max (x : α) (xs : List α) :
    ∀ i, i < (x :: xs).length →
      (x :: xs).getD i 0 ≤ (x :: xs).getD (argmaxIdx (x :: xs)) 0 := by
  induction xs generalizing x with
  | nil =>
      intro i hi
      have : i = 0 := by simpa using Nat.lt_one_iff.mp (by simpa using hi)
      subst this
      simp [argmaxIdx]
  | cons y ys ih =>
      intro i hi
      by_cases hx : x < (y :: ys).getD (argmaxIdx (y :: ys)) 0
      · cases i with
        | zero =>
            simp only [argmaxIdx, if_pos hx, List.getD_cons_zero, List.getD_cons_succ]
            exact le_of_lt hx
        | succ j =>
            simp only [argmaxIdx, if_pos hx, List.getD_cons_succ]
            exact ih y j (by simpa using hi)
      · cases i with
        | zero =>
            simp only [argmaxIdx, if_neg hx, List.getD_cons_zero]
            exact le_rfl
        | succ j =>
            simp only [argmaxIdx, if_neg hx, List.getD_cons_zero, List.getD_cons_succ]
            exact le_trans (ih y j (by simpa using hi)) (not_lt.mp hx)

theorem argmaxIdx_first (x : α) (xs : List α) :
    ∀ i, i < argmaxIdx (x :: xs) →
      (x :: xs).getD i 0 < (x :: xs).getD (argmaxIdx (x :: xs)) 0 := by
  induction xs generalizing x with
  | nil =>
      intro i hi
      simp [argmaxIdx] at hi
  | cons y ys ih =>
      intro i hi
      by_cases hx : x < (y :: ys).getD (argmaxIdx (y :: ys)) 0
      · cases i with
        | zero =>
            simp only [argmaxIdx, if_pos hx, List.getD_cons_zero, List.getD_cons_succ]
            exact hx
        | succ j =>
            simp only [argmaxIdx, if_pos hx, List.getD_cons_succ]
            simp only [argmaxIdx, if_pos hx] at hi
            exact ih y j (by omega)
      · simp only [argmaxIdx, if_neg hx] at hi
        omega

theorem assignSpeaker_words (dia : Annot α) (ts : α) (seg : TSegment α)
    (w : Word α) (ws : List (Word α)) (hw : seg.words = w :: ws) :
    assignSpeaker dia ts seg = selectSpeaker (dia.crop (wordCropSeg ts w ws)) seg.text := by
  unfold assignSpeaker
  rw [hw]

theorem selectSpeaker_nil (dia : Annot α) (text : String) (h : dia.labels = []) :
    selectSpeaker dia text = Except.ok (-1, text) := by
  simp [selectSpeaker, h]

theorem selectSpeaker_one (dia : Annot α) (text : String) (l : String) (k : ℤ)
    (h : dia.labels = [l]) (hk : parseSpkId l = some k) :
    selectSpeaker dia text = Except.ok (k, text) := by
  simp [selectSpeaker, h, hk]

theorem selectSpeaker_many (dia : Annot α) (text : String)
    (h2 : 2 ≤ dia.labels.length) :
    selectSpeaker dia text =
      Except.ok (((argmaxIdx (dia.labels.map (fun spk => dia.label_duration spk)) : ℤ)), text) := by
  have h0 : ¬ dia.labels.length = 0 := by omega
  have h1 : ¬ dia.labels.length = 1 := by omega
  simp [selectSpeaker, h0, h1]

/-! ## Claim C4: zero active speakers give the sentinel -/

/-- C4: for every transcript segment whose cropped diarization contains
zero active speakers, `identify_speakers` (through its loop body
`assignSpeaker`) returns the sentinel speaker id `-1` paired with the
segment's text. -/
theorem C4_zero_speakers_sentinel (dia : Annot α) (ts : α) (seg : TSegment α)
    (w : Word α) (ws : List (Word α)) (hw : seg.words = w :: ws)
    (hl : (dia.crop (wordCropSeg ts w ws)).labels = []) :
    assignSpeaker dia ts seg = Except.ok (-1, seg.text) := by
  rw [assignSpeaker_words dia ts seg w ws hw, selectSpeaker_nil _ _ hl]

def diaW4 : Annot ℤ := { uri := "", tracks := [] }

def wordW4 : Word ℤ := { start := 0, stop := 1, text := "ok" }

def segW4 : TSegment ℤ := { start := 0, stop := 1, text := "ok", words := [wordW4] }

/-- C4 witness: a concrete segment with one word over an empty diarization
is captioned by the sentinel. -/
theorem C4_zero_speakers_sentinel_witness :
    segW4.words = wordW4 :: [] ∧
    (diaW4.crop (wordCropSeg 0 wordW4 [])).labels = [] ∧
    assignSpeaker diaW4 0 segW4 = Except.ok (-1, "ok") :=
  ⟨rfl, rfl, C4_zero_speakers_sentinel diaW4 0 segW4 wordW4 [] rfl rfl⟩

/-! ## Claim C5: one active speaker gives the id encoded in its label -/

/-- C5: for every transcript segment whose cropped diarization contains
exactly one active speaker, `identify_speakers` (through its loop body
`assignSpeaker`) returns the integer encoded in that speaker's label,
namely `int(label.split("speaker")[1])` as modelled by `parseSpkId`. -/
theorem C5_single_speaker_id (dia : Annot α) (ts : α) (seg : TSegment α)
    (w : Word α) (ws : List (Word α)) (l : String) (k : ℤ)
    (hw : seg.words = w :: ws)
    (hl : (dia.crop (wordCropSeg ts w ws)).labels = [l])
    (hk : parseSpkId l = some k) :
    assignSpeaker dia ts seg = Except.ok (k, seg.text) := by
  rw [assignSpeaker_words dia ts seg w ws hw, selectSpeaker_one _ _ l k hl hk]

def diaW5 : Annot ℤ := { uri := "", tracks := [({ start := 0, stop := 1 }, "speaker3")] }

def wordW5 : Word ℤ := { start := 0, stop := 1, text := "yo" }

def segW5 : TSegment ℤ := { start := 0, stop := 1, text := "yo", words := [wordW5] }

/-- C5 witness: a concrete segment overlapping only the speaker labelled
"speaker3" is captioned with speaker id 3. -/
theorem C5_single_speaker_id_witness :
    segW5.words = wordW5 :: [] ∧
    (diaW5.crop (wordCropSeg 0 wordW5 [])).labels = ["speaker3"] ∧
    parseSpkId "speaker3" = some 3 ∧
    assignSpeaker diaW5 0 segW5 = Except.ok (3, "yo") :=
  ⟨rfl, by decide, by decide,
    C5_single_speaker_id diaW5 0 segW5 wordW5 [] "speaker3" 3 rfl (by decide) (by decide)⟩

/-! ## Claim C1: the multi-speaker branch -/

def diaC1 : Annot ℤ :=
  { uri := ""
    tracks := [({ start := 0, stop := 1 }, "speaker1"), ({ start := 0, stop := 3 }, "speaker2")] }

def trC1 : Transcription ℤ :=
  { text := "hi"
    segments := [{ start := 0, stop := 3, text := "hi"
                   words := [{ start := 0, stop := 3, text := "hi" }] }] }

/-- C1 counterexample: with two active speakers "speaker1" (duration 1)
and "speaker2" (duration 3), the speaker with maximum total active
duration is "speaker2", whose label encodes the id 2; but the code
returns the caption (1, "hi") — the numpy argmax index into the sorted
label list — so the returned speaker id is not the id of the
maximum-duration speaker. -/
theorem C1_counterexample :
    identify_speakers trC1 diaC1 0 = Except.ok [((1 : ℤ), "hi")] ∧
    (diaC1.crop { start := 0, stop := 3 }).labels = ["speaker1", "speaker2"] ∧
    (diaC1.crop { start := 0, stop := 3 }).label_duration "speaker1" = 1 ∧
    (diaC1.crop { start := 0, stop := 3 }).label_duration "speaker2" = 3 ∧
    parseSpkId "speaker2" = some 2 ∧
    ((1 : ℤ) ≠ 2) :=
  ⟨rfl, by decide, by decide, by decide, by decide, by decide⟩

/-- C1 amended: with several active speakers in the cropped diarization,
`identify_speakers` (through its loop body `assignSpeaker`) returns the
index `j` of the maximum-total-duration speaker within the sorted label
list of the crop — the durations at every position are at most the
duration at `j`, and every strictly earlier position is strictly smaller
(first-occurrence tie-breaking) — rather than the id encoded in that
speaker's label. -/
theorem C1_argmax_index (dia : Annot α) (ts : α) (seg : TSegment α)
    (w : Word α) (ws : List (Word α)) (hw : seg.words = w :: ws)
    (h2 : 2 ≤ ((dia.crop (wordCropSeg ts w ws)).labels).length) :
    ∃ j : ℕ,
      assignSpeaker dia ts seg = Except.ok ((j : ℤ), seg.text) ∧
      j < ((dia.crop (wordCropSeg ts w ws)).labels).length ∧
      (∀ i, i < ((dia.crop (wordCropSeg ts w ws)).labels).length →
        (((dia.crop (wordCropSeg ts w ws)).labels).map
            (fun spk => (dia.crop (wordCropSeg ts w ws)).label_duration spk)).getD i 0 ≤
          (((dia.crop (wordCropSeg ts w ws)).labels).map
            (fun spk => (dia.crop (wordCropSeg ts w ws)).label_duration spk)).getD j 0) ∧
      (∀ i, i < j →
        (((dia.crop (wordCropSeg ts w ws)).labels).map
            (fun spk => (dia.crop (wordCropSeg ts w ws)).label_duration spk)).getD i 0 <
          (((dia.crop (wordCropSeg ts w ws)).labels).map
            (fun spk => (dia.crop (wordCropSeg ts w ws)).label_duration spk)).getD j 0) := by
  rw [assignSpeaker_words dia ts seg w ws hw, selectSpeaker_many _ _ h2]
  set A := dia.crop (wordCropSeg ts w ws) with hA
  obtain ⟨l1, L1, hL⟩ : ∃ l1 L1, A.labels = l1 :: L1 := by
    cases hcase : A.labels with
    | nil => rw [hcase] at h2; simp at h2
    | cons a b => exact ⟨a, b, rfl⟩
  have hDcons : A.labels.map (fun spk => A.label_duration spk) =
      A.label_duration l1 :: L1.map (fun spk => A.label_duration spk) := by
    rw [hL]; simp
  refine ⟨argmaxIdx (A.labels.map (fun spk => A.label_duration spk)), rfl, ?_, ?_, ?_⟩
  · have := argmaxIdx_lt (A.label_duration l1) (L1.map (fun spk => A.label_duration spk))
    rw [← hDcons] at this
    have hlen : (A.labels.map (fun spk => A.label_duration spk)).length = A.labels.length :=
      List.length_map _ _
    omega
  · intro i hi
    have := argmaxIdx_max (A.label_duration l1) (L1.map (fun spk => A.label_duration spk))
    rw [← hDcons] at this
    exact this i (by rw [List.length_map]; exact hi)
  · intro i hij
    have := argmaxIdx_first (A.label_duration l1) (L1.map (fun spk => A.label_duration spk))
    rw [← hDcons] at this
    exact this i hij

def diaW1 : Annot ℤ :=
  { uri := ""
    tracks := [({ start := 0, stop := 1 }, "speaker1"), ({ start := 0, stop := 3 }, "speaker2")] }

def wordW1 : Word ℤ := { start := 0, stop := 3, text := "hi" }

def segW1 : TSegment ℤ := { start := 0, stop := 3, text := "hi", words := [wordW1] }

/-- C1 witness: the amended statement instantiated at a concrete
two-speaker diarization. -/
theorem C1_argmax_index_witness :
    segW1.words = wordW1 :: [] ∧
    2 ≤ ((diaW1.crop (wordCropSeg 0 wordW1 [])).labels).length ∧
    (∃ j : ℕ,
      assignSpeaker diaW1 0 segW1 = Except.ok ((j : ℤ), segW1.text) ∧
      j < ((diaW1.crop (wordCropSeg 0 wordW1 [])).labels).length ∧
      (∀ i, i < ((diaW1.crop (wordCropSeg 0 wordW1 [])).labels).length →
        (((diaW1.crop (wordCropSeg 0 wordW1 [])).labels).map
            (fun spk => (diaW1.crop (wordCropSeg 0 wordW1 [])).label_duration spk)).getD i 0 ≤
          (((diaW1.crop (wordCropSeg 0 wordW1 [])).labels).map
            (fun spk => (diaW1.crop (wordCropSeg 0 wordW1 [])).label_duration spk)).getD j 0) ∧
      (∀ i, i < j →
        (((diaW1.crop (wordCropSeg 0 wordW1 [])).labels).map
            (fun spk => (diaW1.crop (wordCropSeg 0 wordW1 [])).label_duration spk)).getD i 0 <
          (((diaW1.crop (wordCropSeg 0 wordW1 [])).labels).map
            (fun spk => (diaW1.crop (wordCropSeg 0 wordW1 [])).label_duration spk)).getD j 0)) :=
  ⟨rfl, by decide, C1_argmax_index diaW1 0 segW1 wordW1 [] rfl (by decide)⟩

/-! ## Claim C8: the crop interval -/

def diaC8 : Annot ℤ := { uri := "", tracks := [({ start := 0, stop := 4 }, "speaker0")] }

def segC8 : TSegment ℤ :=
  { start := 0, stop := 30, text := "hey", words := [{ start := 5, stop := 25, text := "hey" }] }

/-- C8 counterexample: a segment whose own "start"/"end" fields are 0 and
30 but whose words span 5 to 25, over a diarization active only on 0 to 4.
Cropping at the word timestamps (what the code does) finds no active
speaker and yields the sentinel; cropping at the segment-level fields
(what the claim literally states) would find "speaker0" and yield
speaker id 0. -/
theorem C8_counterexample :
    assignSpeaker diaC8 0 segC8 = Except.ok (-1, "hey") ∧
    assignSpeakerSegFields diaC8 0 segC8 = Except.ok ((0 : ℤ), "hey") ∧
    (Except.ok ((-1 : ℤ), "hey") : Except String (ℤ × String)) ≠
      Except.ok ((0 : ℤ), "hey") :=
  ⟨rfl, rfl, by simp⟩

/-- C8 amended: `WhisperTranscriber.call` identifies speakers with
`time_shift = waveform.sliding_window.start`, and the caption of a
segment depends on the diarization only through its crop to the interval
from the first word's start to the last word's end, both shifted by that
time offset (rather than through a crop at the segment-level
"start"/"end" fields). -/
theorem C8_word_timestamps_crop (oracle : WhisperOracle α) (st : WhisperTranscriber)
    (dX : Annot α) (wX : SlidingWindowFeature α)
    (d d2 : Annot α) (ts : α) (seg : TSegment α) (w : Word α) (ws : List (Word α))
    (hw : seg.words = w :: ws)
    (hcrop : d.crop (wordCropSeg ts w ws) = d2.crop (wordCropSeg ts w ws)) :
    (WhisperTranscriber.call oracle st dX wX).2 =
      identify_speakers (WhisperTranscriber.transcribe oracle st wX) dX
        wX.sliding_window.start ∧
    assignSpeaker d ts seg = assignSpeaker d2 ts seg := by
  constructor
  · rfl
  · rw [assignSpeaker_words d ts seg w ws hw, assignSpeaker_words d2 ts seg w ws hw, hcrop]

def diaW8a : Annot ℤ := { uri := "", tracks := [({ start := 0, stop := 1 }, "speaker0")] }

def diaW8b : Annot ℤ :=
  { uri := ""
    tracks := [({ start := 0, stop := 1 }, "speaker0"), ({ start := 5, stop := 6 }, "speaker1")] }

def wordW8 : Word ℤ := { start := 0, stop := 1, text := "w" }

def segW8 : TSegment ℤ := { start := 0, stop := 1, text := "w", words := [wordW8] }

def oracleW8 : WhisperOracle ℤ := fun _ _ => { text := "", segments := [] }

def wfW8 : SlidingWindowFeature ℤ :=
  { data := [], sliding_window := { duration := 5, step := 1, start := 0 } }

/-- C8 witness: two diarizations that agree once cropped to the word
interval produce the same caption, and the call stage uses the sliding
window start as the time shift. -/
theorem C8_word_timestamps_crop_witness :
    segW8.words = wordW8 :: [] ∧
    diaW8a.crop (wordCropSeg 0 wordW8 []) = diaW8b.crop (wordCropSeg 0 wordW8 []) ∧
    ((WhisperTranscriber.call oracleW8 WhisperTranscriber.initState diaW8a wfW8).2 =
      identify_speakers
        (WhisperTranscriber.transcribe oracleW8 WhisperTranscriber.initState wfW8) diaW8a
        wfW8.sliding_window.start ∧
     assignSpeaker diaW8a 0 segW8 = assignSpeaker diaW8b 0 segW8) :=
  ⟨rfl, rfl,
    C8_word_timestamps_crop oracleW8 WhisperTranscriber.initState diaW8a wfW8
      diaW8a diaW8b 0 segW8 wordW8 [] rfl rfl⟩

/-! ## Claim C10: caption alignment -/

theorem assignSpeaker_ok_parts (dia : Annot α) (ts : α) (seg : TSegment α) (c : ℤ × String)
    (h : assignSpeaker dia ts seg = Except.ok c) : c.2 = seg.text ∧ seg.words ≠ [] := by
  cases hwrd : seg.words with
  | nil =>
      unfold assignSpeaker at h
      rw [hwrd] at h
      exact absurd h (by simp)
  | cons w ws =>
      refine ⟨?_, by simp [hwrd]⟩
      rw [assignSpeaker_words dia ts seg w ws hwrd] at h
      rcases hcase : (dia.crop (wordCropSeg ts w ws)).labels with _ | ⟨l1, _ | ⟨l2, rest⟩⟩
      · rw [selectSpeaker_nil _ _ hcase] at h
        cases h
        rfl
      · cases hp : parseSpkId l1 with
        | none => simp [selectSpeaker, hcase, hp] at h
        | some k =>
            rw [selectSpeaker_one _ _ l1 k hcase hp] at h
            cases h
            rfl
      · rw [selectSpeaker_many _ _ (by rw [hcase]; simp)] at h
        cases h
        rfl

theorem assignAll_ok (dia : Annot α) (ts : α) :
    ∀ (segs : List (TSegment α)) (caps : List (ℤ × String)),
      assignAll dia ts segs = Except.ok caps →
      caps.length = segs.length ∧
      (∀ i, i < segs.length →
        (caps.getD i ((0 : ℤ), "")).2 =
          (segs.getD i { start := 0, stop := 0, text := "", words := [] }).text) ∧
      (∀ seg ∈ segs, seg.words ≠ []) := by
  intro segs
  induction segs with
  | nil =>
      intro caps h
      simp only [assignAll] at h
      cases h
      refine ⟨rfl, ?_, by simp⟩
      intro i hi
      simp at hi
  | cons s rest ih =>
      intro caps h
      simp only [assignAll] at h
      cases hs : assignSpeaker dia ts s with
      | error e => rw [hs] at h; simp at h
      | ok c =>
          rw [hs] at h
          cases hr : assignAll dia ts rest with
          | error e => rw [hr] at h; simp at h
          | ok cs =>
              rw [hr] at h
              simp only [] at h
              cases h
              obtain ⟨hlen, htext, hwords⟩ := ih cs hr
              obtain ⟨hc2, hcw⟩ := assignSpeaker_ok_parts dia ts s c hs
              refine ⟨by simp [hlen], ?_, ?_⟩
              · intro i hi
                cases i with
                | zero => simpa using hc2
                | succ j =>
                    simp only [List.getD_cons_succ]
                    exact htext j (by simpa using hi)
              · intro seg hseg
                rcases List.mem_cons.mp hseg with hseg | hseg
                · subst hseg; exact hcw
                · exact hwords seg hseg

/-- C10 counterexample: a transcription with one segment containing a
word, over a diarization whose only active label is "alice": the single
speaker branch evaluates `int("alice".split("speaker")[1])`, which
raises, so `identify_speakers` returns no caption list at all even
though every segment contains a word. -/
theorem C10_counterexample :
    identify_speakers
        ({ text := "hi"
           segments := [{ start := 0, stop := 3, text := "hi"
                          words := [{ start := 0, stop := 3, text := "hi" }] }] } :
          Transcription ℤ)
        ({ uri := "", tracks := [({ start := 0, stop := 3 }, "alice")] } : Annot ℤ) 0 =
      Except.error "ValueError: invalid literal for int with base 10" ∧
    parseSpkId "alice" = none :=
  ⟨rfl, by decide⟩

/-- C10 amended: whenever `identify_speakers` returns a caption list (it
can raise even when every segment has words, as the counterexample
shows), the list has exactly one caption per transcription segment, in
segment order, each caption's text equals that segment's text unchanged,
and success forces every segment to contain at least one word (the crop
interval comes from the first and last word timestamps). -/
theorem C10_captions_align (tr : Transcription α) (dia : Annot α) (ts : α)
    (caps : List (ℤ × String))
    (h : identify_speakers tr dia ts = Except.ok caps) :
    caps.length = tr.segments.length ∧
    (∀ i, i < tr.segments.length →
      (caps.getD i ((0 : ℤ), "")).2 =
        (tr.segments.getD i { start := 0, stop := 0, text := "", words := [] }).text) ∧
    (∀ seg ∈ tr.segments, seg.words ≠ []) :=
  assignAll_ok dia ts tr.segments caps h

def trW10 : Transcription ℤ :=
  { text := "ab"
    segments := [{ start := 0, stop := 1, text := "a"
                   words := [{ start := 0, stop := 1, text := "a" }] },
                 { start := 1, stop := 2, text := "b"
                   words := [{ start := 1, stop := 2, text := "b" }] }] }

def diaW10 : Annot ℤ := { uri := "", tracks := [] }

/-- C10 witness: a concrete two-segment transcription over an empty
diarization succeeds with aligned captions. -/
theorem C10_captions_align_witness :
    identify_speakers trW10 diaW10 0 = Except.ok [((-1 : ℤ), "a"), ((-1 : ℤ), "b")] ∧
    ([((-1 : ℤ), "a"), ((-1 : ℤ), "b")].length = trW10.segments.length ∧
     (∀ i, i < trW10.segments.length →
       ([((-1 : ℤ), "a"), ((-1 : ℤ), "b")].getD i ((0 : ℤ), "")).2 =
         (trW10.segments.getD i { start := 0, stop := 0, text := "", words := [] }).text) ∧
     (∀ seg ∈ trW10.segments, seg.words ≠ [])) :=
  ⟨rfl, C10_captions_align trW10 diaW10 0 [((-1 : ℤ), "a"), ((-1 : ℤ), "b")] rfl⟩

/-! ## Claim C2: colorization -/

theorem colors_get_mod : ∀ n : ℕ, n < 20 → colors.get? n = some (colorPalette.getD (n % 10) "") := by
  decide

theorem colorizeCaption_ok (p : ℤ × String) (h : p.1 = -1 ∨ (0 ≤ p.1 ∧ p.1 < 20)) :
    colorizeCaption p =
      Except.ok (if p.1 = -1 then p.2
        else "[" ++ colorPalette.getD (p.1.toNat % 10) "" ++ "]" ++ p.2) := by
  obtain ⟨s, t⟩ := p
  rcases h with h | ⟨h0, h20⟩
  · simp only at h
    simp [colorizeCaption, h]
  · simp only at h0 h20
    have hne : ¬ s = -1 := by omega
    have hn : s.toNat < 20 := by omega
    have hget : pyListGet colors s = some (colorPalette.getD (s.toNat % 10) "") := by
      rw [pyListGet, if_pos h0]
      exact colors_get_mod s.toNat hn
    simp [colorizeCaption, hne, hget]

theorem colorizeAll_ok :
    ∀ (caps : List (ℤ × String)),
      (∀ p ∈ caps, p.1 = -1 ∨ (0 ≤ p.1 ∧ p.1 < 20)) →
      colorizeAll caps =
        Except.ok (caps.map (fun p =>
          if p.1 = -1 then p.2
          else "[" ++ colorPalette.getD (p.1.toNat % 10) "" ++ "]" ++ p.2)) := by
  intro caps
  induction caps with
  | nil => intro _; rfl
  | cons c cs ih =>
      intro h
      have hc := colorizeCaption_ok c (h c (List.mem_cons_self c cs))
      have hcs := ih (fun p hp => h p (List.mem_cons_of_mem c hp))
      simp only [colorizeAll, hc, hcs, List.map_cons]

/-- C2 counterexample: the caption (20, "hi") is inside the claimed
domain (speaker id at least 0), and the claim predicts the palette entry
at 20 mod 10; but `colors` is the ten-color palette doubled (20 entries,
no modulo), so `colors[20]` raises IndexError and no colored caption is
produced. -/
theorem C2_counterexample :
    colorize_transcription [((20 : ℤ), "hi")] =
      Except.error "IndexError: list index out of range" ∧
    (Except.error "IndexError: list index out of range" : Except String String) ≠
      Except.ok ("[" ++ colorPalette.getD (20 % 10) "" ++ "]" ++ "hi") :=
  ⟨rfl, by simp⟩

/-- C2 amended: `colorize_transcription` is a pure function of the
caption list; a caption with the sentinel speaker id -1 is emitted
without color markup, and a caption with speaker id 0 ≤ s < 20 is
wrapped in the palette entry at position s mod 10 (the source materializes
the ten-color palette doubled, so the modulo cycling holds only for the
first two cycles; any id ≥ 20 raises IndexError instead). -/
theorem C2_palette_cycle (caps : List (ℤ × String))
    (h : ∀ p ∈ caps, p.1 = -1 ∨ (0 ≤ p.1 ∧ p.1 < 20)) :
    colorize_transcription caps =
      Except.ok (pyJoin "\n" (caps.map (fun p =>
        if p.1 = -1 then p.2
        else "[" ++ colorPalette.getD (p.1.toNat % 10) "" ++ "]" ++ p.2))) := by
  rw [colorize_transcription, colorizeAll_ok caps h]

def capsW2 : List (ℤ × String) := [((-1 : ℤ), "a"), ((0 : ℤ), "b"), ((13 : ℤ), "c")]

/-- C2 witness: a concrete caption list with the sentinel, a first-cycle
id and a second-cycle id. -/
theorem C2_palette_cycle_witness :
    (∀ p ∈ capsW2, p.1 = -1 ∨ (0 ≤ p.1 ∧ p.1 < 20)) ∧
    colorize_transcription capsW2 =
      Except.ok (pyJoin "\n" (capsW2.map (fun p =>
        if p.1 = -1 then p.2
        else "[" ++ colorPalette.getD (p.1.toNat % 10) "" ++ "]" ++ p.2))) :=
  ⟨by decide, C2_palette_cycle capsW2 (by decide)⟩

/-! ## Claims C6 and C9: concat -/

/-- C6: for every non-empty chunk list, `concat` returns a waveform whose
underlying sample array is the concatenation of the input sample arrays
in input order (under the first chunk's sliding window), so its sample
count is the sum of the input sample counts. -/
theorem C6_concat_samples (c : Annot α × SlidingWindowFeature α)
    (cs : List (Annot α × SlidingWindowFeature α)) (collar : α) :
    ∃ ann : Annot α,
      concat (c :: cs) collar =
        some (ann, { data := ((c :: cs).map (fun p => p.2.data)).flatten
                     sliding_window := c.2.sliding_window }) ∧
      (((c :: cs).map (fun p => p.2.data)).flatten).length =
        ((c :: cs).map (fun p => p.2.data.length)).sum := by
  refine ⟨_, rfl, ?_⟩
  rw [List.length_flatten, List.map_map]
  rfl

/-- C9: `concat` is defined only for non-empty chunk lists — on the empty
list the access of the first chunk fails (the error value `none`), on any
non-empty list it returns a pair — and the batching stage of the pipeline
emits batches of the fixed positive count
`batch_size = int(transcription_duration // config.step) = 4`. -/
theorem C9_concat_totality :
    (∀ collar : ℚ, concat ([] : List (Annot ℚ × SlidingWindowFeature ℚ)) collar = none) ∧
    (∀ (c : Annot α × SlidingWindowFeature α)
       (cs : List (Annot α × SlidingWindowFeature α)) (collar : α),
      ∃ p, concat (c :: cs) collar = some p) ∧
    batch_size = 4 ∧ 0 < batch_size := by
  have hb : batch_size = 4 := by
    unfold batch_size transcription_duration config
    rw [show ((2 : ℚ) / ((1 : ℚ)/2)) = 4 by norm_num]
    decide
  exact ⟨fun _ => rfl, fun c cs collar => ⟨_, rfl⟩, hb, by omega⟩

/-! ## Claim C7: the prompt buffer -/

theorem processAll_buffer (oracle : WhisperOracle α) :
    ∀ (inputs : List (Annot α × SlidingWindowFeature α)) (st : WhisperTranscriber),
      (processAll oracle st inputs).buffer =
        st.buffer ++ concatTexts ((callTrace oracle st inputs).map Prod.snd) := by
  intro inputs
  induction inputs with
  | nil =>
      intro st
      simp only [processAll, callTrace, List.map_nil, concatTexts]
      rw [strAppendEmpty]
  | cons p rest ih =>
      intro st
      simp only [processAll, callTrace, List.map_cons, concatTexts]
      rw [ih]
      show st.buffer ++ (WhisperTranscriber.transcribe oracle st p.2).text ++ _ = _
      rw [strAppendAssoc]

theorem callTrace_prompt (oracle : WhisperOracle α) :
    ∀ (inputs : List (Annot α × SlidingWindowFeature α)) (st : WhisperTranscriber) (n : ℕ),
      n < inputs.length →
      ((callTrace oracle st inputs).getD n ("", "")).1 =
        st.buffer ++ concatTexts (((callTrace oracle st inputs).map Prod.snd).take n) := by
  intro inputs
  induction inputs with
  | nil => intro st n hn; simp at hn
  | cons p rest ih =>
      intro st n hn
      cases n with
      | zero =>
          simp only [callTrace, List.getD_cons_zero, List.take_zero, concatTexts]
          rw [strAppendEmpty]
      | succ j =>
          simp only [callTrace, List.getD_cons_succ, List.map_cons, List.take_succ_cons,
            concatTexts]
          rw [ih _ j (by simpa using hn)]
          show st.buffer ++ (WhisperTranscriber.transcribe oracle st p.2).text ++ _ = _
          rw [strAppendAssoc]

/-- C7: after each `__call__` the buffer equals its previous value with
the new transcription's text appended (so it only grows and is never
truncated or reset), and starting from the freshly initialized
transcriber, the buffer after any call sequence is the concatenation of
all texts produced so far, while the prompt each call passes to the model
(`initial_prompt=self._buffer`) is exactly the concatenation of the texts
produced by all strictly earlier calls. -/
theorem C7_prompt_buffer (oracle : WhisperOracle α)
    (inputs : List (Annot α × SlidingWindowFeature α)) (st : WhisperTranscriber)
    (d : Annot α) (w : SlidingWindowFeature α) (n : ℕ) (hn : n < inputs.length) :
    (WhisperTranscriber.call oracle st d w).1.buffer =
      st.buffer ++ (WhisperTranscriber.transcribe oracle st w).text ∧
    (processAll oracle WhisperTranscriber.initState inputs).buffer =
      concatTexts ((callTrace oracle WhisperTranscriber.initState inputs).map Prod.snd) ∧
    ((callTrace oracle WhisperTranscriber.initState inputs).getD n ("", "")).1 =
      concatTexts (((callTrace oracle WhisperTranscriber.initState inputs).map Prod.snd).take n) := by
  refine ⟨rfl, ?_, ?_⟩
  · rw [processAll_buffer]
    exact strEmptyAppend _
  · rw [callTrace_prompt oracle inputs WhisperTranscriber.initState n hn]
    exact strEmptyAppend _

def oracleW7 : WhisperOracle ℤ := fun _ _ => { text := "t", segments := [] }

def diaW7 : Annot ℤ := { uri := "", tracks := [] }

def wfW7 : SlidingWindowFeature ℤ :=
  { data := [], sliding_window := { duration := 5, step := 1, start := 0 } }

def inputsW7 : List (Annot ℤ × SlidingWindowFeature ℤ) := [(diaW7, wfW7), (diaW7, wfW7)]

def stW7 : WhisperTranscriber := { buffer := "p" }

/-- C7 witness: a concrete two-call sequence. -/
theorem C7_prompt_buffer_witness :
    (1 < inputsW7.length) ∧
    ((WhisperTranscriber.call oracleW7 stW7 diaW7 wfW7).1.buffer =
      stW7.buffer ++ (WhisperTranscriber.transcribe oracleW7 stW7 wfW7).text ∧
     (processAll oracleW7 WhisperTranscriber.initState inputsW7).buffer =
      concatTexts ((callTrace oracleW7 WhisperTranscriber.initState inputsW7).map Prod.snd) ∧
     ((callTrace oracleW7 WhisperTranscriber.initState inputsW7).getD 1 ("", "")).1 =
      concatTexts (((callTrace oracleW7 WhisperTranscriber.initState inputsW7).map Prod.snd).take 1)) :=
  ⟨by decide, C7_prompt_buffer oracleW7 inputsW7 stW7 diaW7 wfW7 1 (by decide)⟩

/-! ## Claim C3: the transcription stage -/

/-- C3: because cell 10 binds `asr` to the `WhisperTranscriber` class
object itself (no parentheses), the `ops.starmap(asr)` stage applies the
class to every merged `(diarization, waveform)` pair that passes the
empty-speech filter: this invokes `__init__` with the annotation as the
`model` argument, `whisper.load_model` raises the TypeError captured in
the notebook output, and the stage never yields speaker captions. -/
theorem C3_class_binding_raises (oracle : WhisperOracle α) (d : Annot α)
    (w : SlidingWindowFeature α) (_hf : passesSpeechFilter (d, w)) :
    transcriptionStage oracle asr (d, w) =
      Except.error "TypeError: stat: path should be string, bytes, os.PathLike or integer, not Annotation" ∧
    ∀ cs, transcriptionStage oracle asr (d, w) ≠ Except.ok (StageValue.captions cs) := by
  refine ⟨rfl, ?_⟩
  intro cs hcontra
  rw [show transcriptionStage oracle asr (d, w) =
      Except.error "TypeError: stat: path should be string, bytes, os.PathLike or integer, not Annotation" from rfl] at hcontra
  exact absurd hcontra (by simp)

def oracleC3 : WhisperOracle ℤ := fun _ _ => { text := "", segments := [] }

def diaC3 : Annot ℤ := { uri := "", tracks := [({ start := 0, stop := 1 }, "speaker0")] }

def wfC3 : SlidingWindowFeature ℤ :=
  { data := [0], sliding_window := { duration := 5, step := 1, start := 0 } }

/-- C3 witness: a concrete merged pair with nonzero speech duration
(so it passes the filter) makes the stage raise the TypeError. -/
theorem C3_class_binding_raises_witness :
    passesSpeechFilter (diaC3, wfC3) ∧
    (transcriptionStage oracleC3 asr (diaC3, wfC3) =
      Except.error "TypeError: stat: path should be string, bytes, os.PathLike or integer, not Annotation" ∧
     ∀ cs, transcriptionStage oracleC3 asr (diaC3, wfC3) ≠ Except.ok (StageValue.captions cs)) :=
  ⟨by unfold passesSpeechFilter; decide,
    C3_class_binding_raises oracleC3 diaC3 wfC3 (by unfold passesSpeechFilter; decide)⟩

end DiarizedSTT
